import Mathlib

/-!
Verification development for the cyber-fraud research tool.

This file gives a shallow embedding, in Lean 4, of the parts of the
repository that the specification's claims are about:

* `correlation_engine.py` — the three correlators (`_find_temporal_correlations`,
  `_find_behavioral_correlations`, `_find_ioc_correlations`), IOC extraction
  (`_extract_iocs_from_event`), correlation storage (`_store_correlation`)
  and the correlation pass (`analyze_recent_activity`);
* `sanction_screener.py` — the fuzzy matcher (`calculate_match_score`,
  `get_matched_fields`) and the screening scan (`perform_screening`);
* `run_scrapper.py` — the risk-profile update (`_update_customer_risk_profile`).

Modelling conventions:

* Python floats are modelled as exact rationals (`ℚ`); Python's
  `round(x, 2)` is modelled as exact decimal rounding with round-half-to-even
  (`round2` below).
* Timestamps (`detected_at`, parsed with `datetime.fromisoformat` and
  compared via `total_seconds() / 3600`) are modelled directly as a rational
  number of hours.
* Events are modelled in the shape of the rows the engine reads from its
  SQLite tables: the `customer_id` column is `Option String` (`none` for an
  event carrying no customer id), `event_data` is the optional free-text
  payload, and the structured `iocs` column is modelled by the outcome of
  `json.loads` on it (`IocsField` below).
* Library functions that are not part of this repository are abstracted:
  the three `re.findall` calls of `_extract_iocs_from_event` are parameters
  `ipRe domRe hashRe : String → List String`, and fuzzywuzzy's
  `fuzz.partial_ratio` is a parameter `simScore : String → String → ℕ`
  (an integer similarity in `0..100`; the library returns `0` when either
  side is the empty string, via its `check_empty_string` guard — theorems
  that depend on that take it as an explicit hypothesis).
* Raising a Python exception is modelled with `Except`; an exception caught
  by a `try/except` block is visible only as the caught branch's result.
-/

namespace FraudTool

/-- Exceptions that the modelled code can raise or catch. -/
inductive PyErr where
  | typeError
  | unknownColumn
deriving DecidableEq, Repr

/-! ### Python values produced by `json.loads`

`_extract_iocs_from_event` feeds the structured `iocs` column through
`json.loads` and `list.extend`. The possible parse results are modelled by
`PyVal`: strings, integers, booleans, `null`, lists, and objects (dicts,
modelled by their key list — only the keys are observable in this code,
via `list.extend(dict)`). -/

inductive PyVal where
  | str (s : String)
  | int (n : Int)
  | bool (b : Bool)
  | null
  | list (elems : List PyVal)
  | dict (keys : List PyVal)

mutual

/-- Structural equality on `PyVal` (Python `==` on the values this code
builds; the cross-type numeric equalities `1 == True` etc. never arise in
the inputs considered here). -/
def PyVal.beq : PyVal → PyVal → Bool
  | .str a, .str b => a == b
  | .int a, .int b => a == b
  | .bool a, .bool b => a == b
  | .null, .null => true
  | .list a, .list b => PyVal.listBeq a b
  | .dict a, .dict b => PyVal.listBeq a b
  | _, _ => false

/-- Pointwise `PyVal.beq` on lists. -/
def PyVal.listBeq : List PyVal → List PyVal → Bool
  | [], [] => true
  | a :: as, b :: bs => PyVal.beq a b && PyVal.listBeq as bs
  | _, _ => false

end

instance : BEq PyVal := ⟨PyVal.beq⟩

/-- Whether a Python value is hashable, i.e. may be put into a `set`.
Lists and dicts are unhashable; `set(...)` raises `TypeError` on them. -/
def PyVal.hashable : PyVal → Bool
  | .list _ => false
  | .dict _ => false
  | _ => true

/-- Membership test used for Python `set` deduplication. -/
def pyMem (x : PyVal) : List PyVal → Bool
  | [] => false
  | y :: ys => PyVal.beq x y || pyMem x ys

/-- Deduplication of a list of Python values, as performed by
`list(set(iocs))`. Python's `set` iteration order is unspecified; we fix the
canonical order that keeps the last occurrence of each value. -/
def pyDedup : List PyVal → List PyVal
  | [] => []
  | x :: xs => if pyMem x xs then pyDedup xs else x :: pyDedup xs

/-- `list(set(l))`: raises `TypeError` if some element is unhashable,
otherwise returns the deduplicated list. -/
def pySetList (l : List PyVal) : Except PyErr (List PyVal) :=
  if l.all PyVal.hashable then .ok (pyDedup l) else .error .typeError

/-- `iocs.extend(v)` for a parsed JSON value `v`: a list contributes its
elements, a string contributes its characters (as one-character strings),
a dict contributes its keys; non-iterable values (`int`, `bool`, `null`)
raise `TypeError`, which the caller's bare `except` turns into no
contribution (`none` here). -/
def pyExtend : PyVal → Option (List PyVal)
  | .list es => some es
  | .str s => some (s.data.map (fun c => PyVal.str (String.singleton c)))
  | .dict ks => some ks
  | .int _ => none
  | .bool _ => none
  | .null => none

/-- The structured `iocs` column of an event, modelled by what
`json.loads` would do to it: `empty` is a missing, `NULL` or `''` field
(falsy, so the parse is never attempted), `malformed` is a non-empty string
on which `json.loads` raises, and `parsed v` is a non-empty string parsing
to the value `v`. -/
inductive IocsField where
  | empty
  | malformed
  | parsed (v : PyVal)

/-- An event row as read from the `cyber_threat_events` / `fraud_events`
tables. `detected_at` is in hours (see the module docstring); `event_data`
is the free-text payload (`transaction_data` plays this role for fraud
events, and is absent under the `event_data` key, hence `none`). -/
structure Event where
  eventType : String
  customerId : Option String
  eventData : Option String
  detectedAt : ℚ
  iocs : IocsField

/-! ### Rounding

Python's `round(x, 2)`, modelled as exact round-half-to-even on `ℚ`. -/

/-- Round-half-to-even to the nearest integer. -/
def roundHalfEven (q : ℚ) : ℤ :=
  let f : ℤ := ⌊q⌋
  let r : ℚ := q - f
  if r < 1/2 then f
  else if 1/2 < r then f + 1
  else if Even f then f else f + 1

/-- Python's `round(q, 2)`: round to two decimal places, halves to even. -/
def round2 (q : ℚ) : ℚ :=
  (roundHalfEven (q * 100) : ℚ) / 100

/-! ### IOC extraction — `_extract_iocs_from_event` -/

/-- `_extract_iocs_from_event`. The three `re.findall` calls on the
free-text `event_data` field are the parameters `ipRe`, `domRe`, `hashRe`
(IPv4 addresses, domain-like tokens, hex hash strings). The structured
`iocs` field contributes the result of `json.loads` fed to `list.extend`,
with any exception inside the `try` swallowed (`pyExtend` returning `none`).
The final `list(set(iocs))` is `pySetList`, which raises `TypeError` when
an unhashable value (for example a nested list) reached the ioc list. -/
def extractIocsFromEvent (ipRe domRe hashRe : String → List String)
    (e : Event) : Except PyErr (List PyVal) :=
  let textIocs : List PyVal :=
    match e.eventData with
    | some s => (ipRe s ++ domRe s ++ hashRe s).map PyVal.str
    | none => []
  let structIocs : List PyVal :=
    match e.iocs with
    | .empty => []
    | .malformed => []
    | .parsed v => (pyExtend v).getD []
  pySetList (textIocs ++ structIocs)

/-! ### Temporal correlator — `_find_temporal_correlations` -/

/-- A `TEMPORAL` correlation dict (the free-text `risk_factors` and
`recommendation` entries, which only interpolate the fields below into
fixed sentences, are not modelled). -/
structure TemporalCorrelation where
  cyberEvent : Event
  fraudEvent : Event
  confidenceScore : ℚ
  timeDifferenceHours : ℚ
  customerId : Option String

/-- The body of the temporal double loop for one `(cyber, fraud)` pair:
skip the pair unless the customer ids are equal; emit iff the absolute
time difference in hours is at most 24, with confidence
`round(max(0.8 - diff/48, 0.3), 2)`. -/
def temporalPair (c f : Event) : Option TemporalCorrelation :=
  if c.customerId = f.customerId then
    let timeDiff : ℚ := |f.detectedAt - c.detectedAt|
    if timeDiff ≤ 24 then
      some { cyberEvent := c, fraudEvent := f,
             confidenceScore := round2 (max (4/5 - timeDiff / 48) (3/10)),
             timeDifferenceHours := round2 timeDiff,
             customerId := c.customerId }
    else none
  else none

/-- `_find_temporal_correlations`: the double loop over cyber × fraud
events, appending a correlation for each qualifying pair. -/
def findTemporalCorrelations (cyberEvents fraudEvents : List Event) :
    List TemporalCorrelation :=
  cyberEvents.flatMap (fun c => fraudEvents.filterMap (temporalPair c))

/-! ### Behavioral correlator — `_find_behavioral_correlations` -/

/-- A `BEHAVIORAL` correlation dict (free-text fields not modelled). -/
structure BehavioralCorrelation where
  customerId : Option String
  cyberEventCount : ℕ
  fraudEventCount : ℕ
  confidenceScore : ℚ
deriving DecidableEq

/-- `_find_behavioral_correlations`: group both event lists by customer id,
and for every customer id appearing in either list with at least one cyber
and at least one fraud event, emit one correlation with confidence
`round(min(0.3 + cyberCount*fraudCount*0.1, 0.9), 2)`. The source iterates
over a Python `set` union of the two key sets, whose order is unspecified;
we fix the order given by `List.dedup` over cyber keys then fraud keys. -/
def findBehavioralCorrelations (cyberEvents fraudEvents : List Event) :
    List BehavioralCorrelation :=
  let ids := (cyberEvents.map Event.customerId ++
              fraudEvents.map Event.customerId).dedup
  ids.filterMap (fun id =>
    let cyberCount := (cyberEvents.filter (fun e => e.customerId == id)).length
    let fraudCount := (fraudEvents.filter (fun e => e.customerId == id)).length
    if 0 < cyberCount ∧ 0 < fraudCount then
      some { customerId := id, cyberEventCount := cyberCount,
             fraudEventCount := fraudCount,
             confidenceScore :=
               round2 (min (3/10 + (cyberCount * fraudCount : ℚ) * (1/10)) (9/10)) }
    else none)

/-! ### IOC correlator — `_find_ioc_correlations` -/

/-- An `IOC_BASED` correlation dict (free-text fields not modelled).
`customerId` is `cyber_event.get('customer_id', 'Unknown')`: a plain
string, defaulted when the cyber event carries no customer id. -/
structure IocCorrelation where
  cyberEvent : Event
  fraudEvent : Event
  confidenceScore : ℚ
  sharedIocs : List PyVal
  customerId : String

/-- The shared IOCs of two extracted ioc lists:
`set(cyber_iocs) & set(fraud_iocs)` (both inputs are already deduplicated;
Python's set order is unspecified, we keep `cyberIocs`'s order). -/
def sharedIocs (cyberIocs fraudIocs : List PyVal) : List PyVal :=
  cyberIocs.filter (fun x => pyMem x fraudIocs)

/-- The correlation emitted for one `(cyber, fraud)` pair with shared IOC
list `common` (nonempty): confidence `round(min(0.5 + len*0.2, 0.9), 2)`,
customer id from the cyber event, defaulting to `"Unknown"`. -/
def mkIocCorrelation (c f : Event) (common : List PyVal) : IocCorrelation :=
  { cyberEvent := c, fraudEvent := f,
    confidenceScore := round2 (min (1/2 + (common.length : ℚ) * (2/10)) (9/10)),
    sharedIocs := common,
    customerId := c.customerId.getD "Unknown" }

/-- The inner fraud-event loop of `_find_ioc_correlations` for one cyber
event with extracted iocs `cyberIocs`: extraction of a fraud event may
raise, aborting the whole pass. -/
def iocInnerLoop (ipRe domRe hashRe : String → List String)
    (c : Event) (cyberIocs : List PyVal) :
    List Event → Except PyErr (List IocCorrelation)
  | [] => .ok []
  | f :: rest =>
      match extractIocsFromEvent ipRe domRe hashRe f with
      | .error e => .error e
      | .ok fraudIocs =>
          match iocInnerLoop ipRe domRe hashRe c cyberIocs rest with
          | .error e => .error e
          | .ok tail =>
              let common := sharedIocs cyberIocs fraudIocs
              if 0 < common.length then
                .ok (mkIocCorrelation c f common :: tail)
              else
                .ok tail

/-- `_find_ioc_correlations`: the double loop over cyber × fraud events;
a correlation is emitted for exactly the pairs whose extracted IOC sets
intersect. An extraction error propagates (the Python exception aborts the
loop with nothing returned). -/
def findIocCorrelations (ipRe domRe hashRe : String → List String) :
    List Event → List Event → Except PyErr (List IocCorrelation)
  | [], _ => .ok []
  | c :: rest, fraudEvents =>
      match extractIocsFromEvent ipRe domRe hashRe c with
      | .error e => .error e
      | .ok cyberIocs =>
          match iocInnerLoop ipRe domRe hashRe c cyberIocs fraudEvents with
          | .error e => .error e
          | .ok here =>
              match findIocCorrelations ipRe domRe hashRe rest fraudEvents with
              | .error e => .error e
              | .ok tail => .ok (here ++ tail)

/-! ### The correlation pass — `analyze_recent_activity` and
`_store_correlation` -/

/-- A correlation produced by any of the three correlators (the pass
concatenates their outputs into one Python list). -/
inductive Correlation where
  | temporal (t : TemporalCorrelation)
  | behavioral (b : BehavioralCorrelation)
  | ioc (i : IocCorrelation)

/-- The `correlation_type` string stored with a correlation. -/
def Correlation.ctype : Correlation → String
  | .temporal _ => "TEMPORAL"
  | .behavioral _ => "BEHAVIORAL"
  | .ioc _ => "IOC_BASED"

/-- The `confidence_score` of a correlation. -/
def Correlation.confidence : Correlation → ℚ
  | .temporal t => t.confidenceScore
  | .behavioral b => b.confidenceScore
  | .ioc i => i.confidenceScore

/-- A row of the `correlation_results` table as written by
`_store_correlation` (the `correlation_factors` free-text JSON and the
`created_at` timestamp are not modelled). -/
structure CorrRow where
  correlationType : String
  confidenceScore : ℚ
  status : String
deriving DecidableEq

/-- The row `_store_correlation` inserts for a correlation: its type and
confidence, with `status = 'NEW'`. -/
def rowOf (c : Correlation) : CorrRow :=
  { correlationType := c.ctype, confidenceScore := c.confidence,
    status := "NEW" }

/-- `_store_correlation`: try to insert the row and commit; on any
exception, print and continue (the failure is swallowed, the table is left
as it was). Whether the underlying insert fails is an environment fact,
passed in as `fail`. -/
def storeCorrelation (table : List CorrRow) (fail : Bool) (c : Correlation) :
    List CorrRow :=
  if fail then table else table ++ [rowOf c]

/-- The storage loop of `analyze_recent_activity`: store each found
correlation in order; `fails i` tells whether the `i`-th insert fails. -/
def storeAllCorrelations (table : List CorrRow) (fails : ℕ → Bool) (i : ℕ) :
    List Correlation → List CorrRow
  | [] => table
  | c :: cs =>
      storeAllCorrelations (storeCorrelation table (fails i) c) fails (i + 1) cs

/-- `analyze_recent_activity`, with the two window reads abstracted into
the event-list arguments (the SQL cutoff-date queries are outside this
core): run the three correlators, concatenate their findings, store each
one, and return the full list. Only an IOC-extraction exception escapes;
store failures are swallowed inside `_store_correlation`. -/
def analyzeRecentActivity (ipRe domRe hashRe : String → List String)
    (cyberEvents fraudEvents : List Event)
    (table : List CorrRow) (fails : ℕ → Bool) :
    Except PyErr (List CorrRow × List Correlation) :=
  let temporal := findTemporalCorrelations cyberEvents fraudEvents
  let behavioral := findBehavioralCorrelations cyberEvents fraudEvents
  match findIocCorrelations ipRe domRe hashRe cyberEvents fraudEvents with
  | .error e => .error e
  | .ok iocCorrs =>
      let correlations := temporal.map Correlation.temporal ++
        behavioral.map Correlation.behavioral ++ iocCorrs.map Correlation.ioc
      let table' := storeAllCorrelations table fails 0 correlations
      .ok (table', correlations)

/-! ### Fuzzy identity matcher — `calculate_match_score` and
`get_matched_fields` (`sanction_screener.py`)

`simScore` abstracts fuzzywuzzy's `fuzz.partial_ratio`, an integer
similarity in `0..100`. -/

/-- Python's `str.lower()`, modelled as a per-character lowercase map
(the ASCII case mapping; all names handled by the matcher's callers are
byte strings for which this agrees with Python). -/
def strLower (s : String) : String := String.mk (s.data.map Char.toLower)

/-- Customer data as consulted by the matcher: the `name`, `nationality`
and `dob` keys of the customer dict, `none` when absent (so `dict.get`
with default `''` yields the empty string). -/
structure Customer where
  name : Option String
  nationality : Option String
  dob : Option String

/-- A watchlist (sanction) entry as consulted by the matcher; only the
three matched fields are modelled, the remaining columns of
`sanction_entities` are not read by the matcher. -/
structure SanctionEntity where
  name : Option String
  nationality : Option String
  dob : Option String

/-- `calculate_match_score`: weighted sum with weights
`name 0.6, nationality 0.2, dob 0.2`. Each contribution is appended to the
`scores` list only when both sides are non-empty (for dob, additionally
only when both 4-character year prefixes exist and agree); the result is
the sum, `0.0` for an empty list. -/
def calculateMatchScore (simScore : String → String → ℕ)
    (c : Customer) (e : SanctionEntity) : ℚ :=
  let customerName := strLower (c.name.getD "")
  let sanctionName := strLower (e.name.getD "")
  let customerNat := strLower (c.nationality.getD "")
  let sanctionNat := strLower (e.nationality.getD "")
  let customerDob := c.dob.getD ""
  let sanctionDob := e.dob.getD ""
  let scores : List ℚ :=
    (if customerName ≠ "" ∧ sanctionName ≠ "" then
        [((simScore customerName sanctionName : ℚ) / 100) * (6/10)]
      else []) ++
    (if customerNat ≠ "" ∧ sanctionNat ≠ "" then
        [(if customerNat = sanctionNat then (1 : ℚ) else 0) * (2/10)]
      else []) ++
    (if customerDob ≠ "" ∧ sanctionDob ≠ "" then
        let customerYear := if 4 ≤ customerDob.length then customerDob.take 4 else ""
        let sanctionYear := if 4 ≤ sanctionDob.length then sanctionDob.take 4 else ""
        if customerYear ≠ "" ∧ sanctionYear ≠ "" ∧ customerYear = sanctionYear then
          [(1 : ℚ) * (2/10)]
        else []
      else [])
  scores.sum

/-- `get_matched_fields`: each field is reported independently — `name`
when the similarity of the lowercased names exceeds 80, `nationality` when
both sides are truthy and equal case-insensitively, `dob` when both sides
are non-empty with equal 4-character prefixes. -/
def getMatchedFields (simScore : String → String → ℕ)
    (c : Customer) (e : SanctionEntity) : List String :=
  (if 80 < simScore (strLower (c.name.getD "")) (strLower (e.name.getD "")) then
      ["name"]
    else []) ++
  (if (c.nationality.getD "") ≠ "" ∧ (e.nationality.getD "") ≠ "" ∧
      strLower (c.nationality.getD "") = strLower (e.nationality.getD "") then
      ["nationality"]
    else []) ++
  (if (c.dob.getD "") ≠ "" ∧ (e.dob.getD "") ≠ "" ∧
      (c.dob.getD "").take 4 = (e.dob.getD "").take 4 then
      ["dob"]
    else [])

/-! ### Screening scan — `perform_screening` -/

/-- One element of the `matches` list built by `perform_screening`. -/
structure ScreeningMatch where
  sanctionEntity : SanctionEntity
  matchScore : ℚ
  matchedFields : List String

/-- `perform_screening`: scan the whole watchlist store in order,
appending a match for every entry whose score reaches the hard-coded 0.8
threshold. The `screeningType` argument is carried but unused here, as in
the source. -/
def performScreening (simScore : String → String → ℕ)
    (customer : Customer) (store : List SanctionEntity)
    (screeningType : String) : List ScreeningMatch :=
  store.foldl (fun acc entity =>
    let matchScore := calculateMatchScore simScore customer entity
    if 8/10 ≤ matchScore then
      acc ++ [{ sanctionEntity := entity, matchScore := matchScore,
                matchedFields := getMatchedFields simScore customer entity }]
    else acc) []

/-! ### Risk-profile update — `_update_customer_risk_profile`
(`run_scrapper.py`)

The update writes to the `customers` table owned by the sanction screener.
Rows are modelled as association lists from column names to SQL values. -/

/-- A SQL value stored in a table cell. -/
inductive SqlVal where
  | text (s : String)
  | real (q : ℚ)
  | null
deriving DecidableEq

/-- The columns of the `customers` table, as created by
`IntegratedSanctionScreener.setup_database`. -/
def customersColumns : List String :=
  ["customer_id", "customer_type", "name", "email", "phone", "nationality",
   "risk_category", "last_updated", "cyber_risk_score", "fraud_risk_score"]

/-- A row of the `customers` table. -/
def CustomerRow : Type := List (String × SqlVal)

/-- Look a column up in a row. -/
def CustomerRow.col (r : CustomerRow) (c : String) : Option SqlVal :=
  (r.find? (fun p => p.1 == c)).map Prod.snd

/-- `INSERT OR REPLACE INTO customers (cols) VALUES (vals)`: fails with an
unknown-column error when some named column is not in the table schema;
otherwise replaces any row with the same `customer_id` (the primary key)
by the new row. -/
def insertOrReplaceCustomers (table : List CustomerRow)
    (cols : List String) (vals : List SqlVal) :
    Except PyErr (List CustomerRow) :=
  if cols.all (fun c => customersColumns.contains c) then
    let newRow : CustomerRow := cols.zip vals
    .ok ((table.filter
           (fun r => !(r.col "customer_id" == newRow.col "customer_id")))
         ++ [newRow])
  else .error .unknownColumn

/-- The screening / fraud / cyber results bundle built by
`process_customer_onboarding` and handed to the risk-profile update.
`cyberRiskScore` and `cyberRiskLevel` model the `cyber_risk_score` and
`risk_level` entries of the dict returned by `assess_customer_cyber_risk`. -/
structure OnboardingResults where
  sanctionScreening : List ScreeningMatch
  fraudRiskScore : ℚ
  cyberRiskScore : ℚ
  cyberRiskLevel : String

/-- `_update_customer_risk_profile`: attempt an
`INSERT OR REPLACE INTO customers (customer_id, fraud_risk_score,
cyber_risk_score, sanction_matches, last_updated)` and swallow any
exception (`except ... print`). Two remarks, both faithful to the source:
the cyber score is read as `results['cyber_risk'].get('risk_score', 0)`,
but the assessment dict has no `risk_score` key (it stores
`cyber_risk_score`), so the lookup always yields the default `0`; and the
column list names `sanction_matches`, which is not a column of
`customers`, so the insert itself always fails. -/
def updateCustomerRiskProfile (table : List CustomerRow)
    (customerId : String) (results : OnboardingResults) (now : ℚ) :
    List CustomerRow :=
  let fraudScore := results.fraudRiskScore
  let cyberScore : ℚ := 0
  let sanctionMatches : ℚ := results.sanctionScreening.length
  match insertOrReplaceCustomers table
      ["customer_id", "fraud_risk_score", "cyber_risk_score",
       "sanction_matches", "last_updated"]
      [.text customerId, .real fraudScore, .real cyberScore,
       .real sanctionMatches, .real now] with
  | .ok table' => table'
  | .error _ => table

/-! ### Concrete instances used by the closed theorems below -/

/-- The event exhibiting the C8 failure: no free text, and a structured
`iocs` field holding the JSON text `[["a"]]` — well-formed JSON whose
single element is itself a list. -/
def nestedListEvent : Event :=
  { eventType := "PHISHING_ATTEMPT", customerId := some "CUST001",
    eventData := none, detectedAt := 0,
    iocs := .parsed (.list [.list [.str "a"]]) }

/-- A concrete instance of the similarity parameter, agreeing with
fuzzywuzzy's behaviour on the inputs used in the closed theorems below:
identical non-empty strings score 100 (`fuzz.ratio` of equal strings),
and an empty side scores 0 (the `check_empty_string` guard). -/
def simSample (a b : String) : ℕ :=
  if a = "" ∨ b = "" then 0 else if a = b then 100 else 0

/-- A cyber event for customer `CUST001` detected at hour `t`, with no
ioc payload. -/
def cybAt (t : ℚ) : Event :=
  { eventType := "ACCOUNT_TAKEOVER", customerId := some "CUST001",
    eventData := none, detectedAt := t, iocs := .empty }

/-- A fraud event for customer `CUST001` detected at hour `t`. -/
def frdAt (t : ℚ) : Event :=
  { eventType := "UNAUTHORIZED_TRANSFER", customerId := some "CUST001",
    eventData := none, detectedAt := t, iocs := .empty }

/-- The match built for an admitted entry. -/
def mkScreeningMatch (simScore : String → String → ℕ)
    (customer : Customer) (entity : SanctionEntity) : ScreeningMatch :=
  { sanctionEntity := entity,
    matchScore := calculateMatchScore simScore customer entity,
    matchedFields := getMatchedFields simScore customer entity }

/-- The counterexample customer for C2. -/
def cexCustomer : Customer :=
  ⟨some "ali hassan", some "syria", some "1970-01-01"⟩

/-- A watchlist entry matching `cexCustomer` on name and nationality only
(score `0.8`). -/
def entryNameNat : SanctionEntity := ⟨some "Ali Hassan", some "Syria", none⟩

/-- A watchlist entry matching `cexCustomer` on name, nationality and
birth year (score `1.0`). -/
def entryFull : SanctionEntity :=
  ⟨some "Ali Hassan", some "Syria", some "1970-05-05"⟩

/-- The regex parameter used in closed instances: a matcher returning no
occurrences (the concrete events below carry no free text anyway). -/
def noRe : String → List String := fun _ => []

/-- A cyber event carrying the single structured IOC `192.168.1.100`. -/
def cybIoc : Event :=
  { eventType := "PHISHING_ATTEMPT", customerId := some "CUST001",
    eventData := none, detectedAt := 0,
    iocs := .parsed (.list [.str "192.168.1.100"]) }

/-- A fraud event carrying the same single structured IOC. -/
def frdIoc : Event :=
  { eventType := "UNAUTHORIZED_TRANSFER", customerId := some "CUST001",
    eventData := none, detectedAt := 1,
    iocs := .parsed (.list [.str "192.168.1.100"]) }

/-- The correlation list produced for `[cybIoc]` × `[frdIoc]`. -/
def iocDemoList : List IocCorrelation :=
  [mkIocCorrelation cybIoc frdIoc [PyVal.str "192.168.1.100"]]

/-- A cyber event with customer id `A` sharing IOC `x.com` with
`frdIocB`, whose customer id is the different `B`. -/
def cybIocA : Event :=
  { eventType := "MALWARE_DETECTION", customerId := some "A",
    eventData := none, detectedAt := 0, iocs := .parsed (.list [.str "x.com"]) }

/-- A fraud event with customer id `B` (different from `cybIocA`'s). -/
def frdIocB : Event :=
  { eventType := "MONEY_LAUNDERING", customerId := some "B",
    eventData := none, detectedAt := 5, iocs := .parsed (.list [.str "x.com"]) }

/-- A cyber event with no customer id, sharing IOC `x.com` with
`frdIocB`. -/
def cybIocNone : Event :=
  { eventType := "MALWARE_DETECTION", customerId := none,
    eventData := none, detectedAt := 0, iocs := .parsed (.list [.str "x.com"]) }

/-- The correlation list for `[cybIocA]` × `[frdIocB]`. -/
def iocCrossList : List IocCorrelation :=
  [mkIocCorrelation cybIocA frdIocB [PyVal.str "x.com"]]

/-- The correlation list for `[cybIocNone]` × `[frdIocB]`. -/
def iocNoneList : List IocCorrelation :=
  [mkIocCorrelation cybIocNone frdIocB [PyVal.str "x.com"]]

/-! ## Rounding lemmas -/

/-- Round-half-even of an integer is that integer. -/
theorem roundHalfEven_intCast (n : ℤ) : roundHalfEven (n : ℚ) = n := by
  unfold roundHalfEven
  simp

/-- `round(q, 2)` is the identity on integer multiples of `1/10` — the
form every behavioral and IOC confidence value takes. -/
theorem round2_tenths (n : ℤ) : round2 ((n : ℚ) / 10) = (n : ℚ) / 10 := by
  unfold round2
  have h : ((n : ℚ) / 10) * 100 = ((10 * n : ℤ) : ℚ) := by push_cast; ring
  rw [h, roundHalfEven_intCast]
  push_cast
  ring

/-- `round(q, 2)` on the min of `0.3 + k·0.1` and `0.9` (the behavioral
confidence) is exact. -/
theorem round2_behavioral (k : ℕ) :
    round2 (min (3/10 + (k : ℚ) * (1/10)) (9/10)) =
      min (3/10 + (k : ℚ) * (1/10)) (9/10) := by
  rcases min_cases (3/10 + (k : ℚ) * (1/10)) (9/10) with ⟨h, _⟩ | ⟨h, _⟩ <;>
    rw [h]
  · have h3 : (3/10 + (k : ℚ) * (1/10)) = ((3 + k : ℤ) : ℚ) / 10 := by
      push_cast; ring
    rw [h3, round2_tenths]
  · have h9 : (9/10 : ℚ) = ((9 : ℤ) : ℚ) / 10 := by norm_num
    rw [h9, round2_tenths]

/-- `round(q, 2)` on the min of `0.5 + k·0.2` and `0.9` (the IOC
confidence) is exact. -/
theorem round2_ioc (k : ℕ) :
    round2 (min (1/2 + (k : ℚ) * (2/10)) (9/10)) =
      min (1/2 + (k : ℚ) * (2/10)) (9/10) := by
  rcases min_cases (1/2 + (k : ℚ) * (2/10)) (9/10) with ⟨h, _⟩ | ⟨h, _⟩ <;>
    rw [h]
  · have h5 : (1/2 + (k : ℚ) * (2/10)) = ((5 + 2 * k : ℤ) : ℚ) / 10 := by
      push_cast; ring
    rw [h5, round2_tenths]
  · have h9 : (9/10 : ℚ) = ((9 : ℤ) : ℚ) / 10 := by norm_num
    rw [h9, round2_tenths]

/-! ## C1 — risk-profile update and the `matchScore ≥ 0.8` override -/

/-- C1 (code bug, evaluation): the risk-profile update never changes the
stored `customers` table at all — for every table, customer id, results
bundle (in particular any screening result list containing a match with
`matchScore ≥ 0.8`) and timestamp, `_update_customer_risk_profile` returns
the table unchanged. Its `INSERT OR REPLACE` names the column
`sanction_matches`, which is not a column of `customers`, so the insert
always fails and the `except` clause swallows the failure; no
`riskLevel` is computed anywhere in the update, so a `matchScore ≥ 0.8`
hit cannot force `riskLevel = HIGH`. -/
theorem updateCustomerRiskProfile_is_noop (table : List CustomerRow)
    (customerId : String) (results : OnboardingResults) (now : ℚ) :
    updateCustomerRiskProfile table customerId results now = table := by
  have hcols : (["customer_id", "fraud_risk_score", "cyber_risk_score",
      "sanction_matches", "last_updated"].all
        (fun c => customersColumns.contains c)) = false := by decide
  unfold updateCustomerRiskProfile insertOrReplaceCustomers
  rw [hcols]
  simp

/-! ## C8 — IOC extraction on malformed structured fields -/

/-- C8 (code bug, evaluation): on `nestedListEvent` the extraction
raises `TypeError` instead of returning a set — the parsed list's nested
list survives the `try` block (extend succeeds) and then reaches
`list(set(iocs))`, where the unhashable element raises outside any
handler. This holds for every choice of the three regex extractors, since
the event has no free text. -/
theorem extractIocs_raises_on_nested_list
    (ipRe domRe hashRe : String → List String) :
    extractIocsFromEvent ipRe domRe hashRe nestedListEvent =
      .error .typeError := by
  simp [extractIocsFromEvent, nestedListEvent, pyExtend, pySetList,
    PyVal.hashable]

/-! ## C9 — matcher on subject and entry with all fields absent -/

/-- C9 (confirmed): when name, nationality and date of birth are all
absent on both sides, the match score is `0` and the matched-field list is
empty. The only library call on this path is the similarity of two empty
strings, which fuzzywuzzy's `check_empty_string` guard sends to `0`; that
fact is the hypothesis `hsim`. Both functions are total — nothing on this
path can raise. -/
theorem matcher_all_fields_missing (simScore : String → String → ℕ)
    (hsim : simScore "" "" = 0)
    (c : Customer) (e : SanctionEntity)
    (hcn : c.name = none) (hcnat : c.nationality = none) (hcd : c.dob = none)
    (hen : e.name = none) (henat : e.nationality = none) (hed : e.dob = none) :
    calculateMatchScore simScore c e = 0 ∧
      getMatchedFields simScore c e = [] := by
  constructor
  · simp [calculateMatchScore, hcn, hcnat, hcd, hen, henat, hed, strLower]
  · simp [getMatchedFields, hcn, hcnat, hcd, hen, henat, hed, strLower, hsim]

/-- C9 witness: the theorem applied to the all-absent subject and entry
with the concrete similarity function. -/
theorem matcher_all_fields_missing_witness :
    calculateMatchScore simSample ⟨none, none, none⟩ ⟨none, none, none⟩ = 0 ∧
      getMatchedFields simSample ⟨none, none, none⟩ ⟨none, none, none⟩ = [] :=
  matcher_all_fields_missing simSample (by simp [simSample])
    ⟨none, none, none⟩ ⟨none, none, none⟩ rfl rfl rfl rfl rfl rfl

/-! ## C4 — the temporal correlator at a 48-hour separation -/

/-- C4 counterexample: a cyber and a fraud event of the same customer
exactly 48 hours apart produce no temporal correlation at all — the
correlator only emits for pairs at most 24 hours apart, so there is in
particular no correlation with confidence `0.3` as the claim states. -/
theorem temporal_at_48h_empty :
    findTemporalCorrelations [cybAt 0] [frdAt 48] = [] := by
  simp [findTemporalCorrelations, temporalPair, cybAt, frdAt]
  norm_num

/-- C4 (amended): at `Δh = 48` the temporal correlator emits nothing
(pairs beyond 24 hours are rejected); the confidence floor `0.3` is
attained at the emission boundary `Δh = 24`, where a correlation with
confidence exactly `0.3` is produced. -/
theorem temporal_floor_at_24h :
    findTemporalCorrelations [cybAt 0] [frdAt 48] = [] ∧
      (findTemporalCorrelations [cybAt 0] [frdAt 24]).map
        TemporalCorrelation.confidenceScore = [3/10] := by
  constructor
  · simp [findTemporalCorrelations, temporalPair, cybAt, frdAt]
    norm_num
  · have h24 : |(frdAt 24).detectedAt - (cybAt 0).detectedAt| = 24 := by
      simp [cybAt, frdAt]
    have hmax : max (4/5 - (24 : ℚ) / 48) (3/10) = ((3 : ℤ) : ℚ) / 10 := by
      norm_num
    have h310 : round2 (3/10) = 3/10 := by
      have h := round2_tenths 3
      norm_num at h
      exact h
    simp [findTemporalCorrelations, temporalPair, cybAt, frdAt]
    norm_num [hmax, round2_tenths, h310]

/-! ## C2 — the screening scan -/

/-- The screening loop with an explicit accumulator, rewritten as a
filter of the store: the scan admits exactly the entries whose score
reaches `0.8`, in store order. -/
theorem performScreening_foldl_eq (simScore : String → String → ℕ)
    (customer : Customer) (store : List SanctionEntity) (acc : List ScreeningMatch) :
    store.foldl (fun acc entity =>
        let matchScore := calculateMatchScore simScore customer entity
        if 8/10 ≤ matchScore then
          acc ++ [{ sanctionEntity := entity, matchScore := matchScore,
                    matchedFields := getMatchedFields simScore customer entity }]
        else acc) acc =
      acc ++ store.filterMap (fun entity =>
        if 8/10 ≤ calculateMatchScore simScore customer entity then
          some (mkScreeningMatch simScore customer entity)
        else none) := by
  induction store generalizing acc with
  | nil => simp
  | cons e es ih =>
      simp only [List.foldl_cons, List.filterMap_cons]
      by_cases h : 8/10 ≤ calculateMatchScore simScore customer e
      · rw [if_pos h, if_pos h, ih]
        simp [mkScreeningMatch]
      · rw [if_neg h, if_neg h, ih]

/-- C2 (amended): `perform_screening` returns exactly the watchlist
entries whose match score is at least the hard-coded `0.8` admission
threshold, each paired with its score and matched fields — but in
watchlist-store order, not ranked by match score (no sorting is
performed). -/
theorem performScreening_eq_threshold_scan (simScore : String → String → ℕ)
    (customer : Customer) (store : List SanctionEntity) (screeningType : String) :
    performScreening simScore customer store screeningType =
      store.filterMap (fun entity =>
        if 8/10 ≤ calculateMatchScore simScore customer entity then
          some (mkScreeningMatch simScore customer entity)
        else none) := by
  unfold performScreening
  rw [performScreening_foldl_eq]
  simp

/-- C2 counterexample: with the store holding the score-`0.8` entry
before the score-`1.0` entry, screening returns the two matches in store
order `[0.8, 1.0]`, which is not ranked by match score. -/
theorem performScreening_not_ranked :
    ((performScreening simSample cexCustomer [entryNameNat, entryFull]
        "onboarding").map ScreeningMatch.matchScore = [4/5, 1]) ∧
      ¬ List.Sorted (· ≥ ·)
        ((performScreening simSample cexCustomer [entryNameNat, entryFull]
            "onboarding").map ScreeningMatch.matchScore) := by
  have hlow : strLower "Ali Hassan" = "ali hassan" := by decide
  have hnat : strLower "Syria" = "syria" := by decide
  have hA : calculateMatchScore simSample cexCustomer entryNameNat = 4/5 := by
    simp [calculateMatchScore, simSample, cexCustomer, entryNameNat, hlow,
      hnat, strLower]
    norm_num
  have htake1 : ("1970-01-01" : String).take 4 = "1970" := by decide
  have htake2 : ("1970-05-05" : String).take 4 = "1970" := by decide
  have hlen1 : 4 ≤ ("1970-01-01" : String).length := by decide
  have hlen2 : 4 ≤ ("1970-05-05" : String).length := by decide
  have hB : calculateMatchScore simSample cexCustomer entryFull = 1 := by
    simp [calculateMatchScore, simSample, cexCustomer, entryFull, hlow, hnat,
      strLower, htake1, htake2, hlen1, hlen2]
    norm_num
  have hc1 : (8/10 : ℚ) ≤ 4/5 := by norm_num
  have hc2 : (8/10 : ℚ) ≤ 1 := by norm_num
  have hmap : (performScreening simSample cexCustomer [entryNameNat, entryFull]
      "onboarding").map ScreeningMatch.matchScore = [4/5, 1] := by
    unfold performScreening
    simp [List.foldl_cons, List.foldl_nil, hA, hB, hc1, hc2]
  refine ⟨hmap, ?_⟩
  rw [hmap]
  simp [List.sorted_cons]
  norm_num

/-! ## C3 — the temporal correlator -/

/-- Characterization of the temporal loop body. -/
theorem temporalPair_eq_some (c f : Event) (corr : TemporalCorrelation) :
    temporalPair c f = some corr ↔
      c.customerId = f.customerId ∧ |f.detectedAt - c.detectedAt| ≤ 24 ∧
        corr = { cyberEvent := c, fraudEvent := f,
                 confidenceScore :=
                   round2 (max (4/5 - |f.detectedAt - c.detectedAt| / 48) (3/10)),
                 timeDifferenceHours := round2 |f.detectedAt - c.detectedAt|,
                 customerId := c.customerId } := by
  unfold temporalPair
  by_cases h1 : c.customerId = f.customerId
  · by_cases h2 : |f.detectedAt - c.detectedAt| ≤ 24
    · simp [h1, h2, eq_comm]
    · simp [h1, h2]
  · simp [h1]

/-- C3 (amended): for a cyber and a fraud event carrying the same subject
id inside the window, the temporal correlator emits a correlation for the
pair iff the absolute time difference `Δh` in hours is at most 24, and any
emitted correlation for the pair has confidence
`round(max(0.8 - Δh/48, 0.3), 2)` — the exact formula of the claim
followed by the source's rounding to two decimals. -/
theorem temporal_pair_emission (cy fr : List Event) (c f : Event) (sid : String)
    (hc : c ∈ cy) (hf : f ∈ fr)
    (hcid : c.customerId = some sid) (hfid : f.customerId = some sid) :
    ((∃ corr ∈ findTemporalCorrelations cy fr,
        corr.cyberEvent = c ∧ corr.fraudEvent = f) ↔
      |f.detectedAt - c.detectedAt| ≤ 24) ∧
    (∀ corr ∈ findTemporalCorrelations cy fr,
        corr.cyberEvent = c → corr.fraudEvent = f →
        corr.confidenceScore =
          round2 (max (4/5 - |f.detectedAt - c.detectedAt| / 48) (3/10))) := by
  constructor
  · constructor
    · rintro ⟨corr, hmem, hec, hef⟩
      rw [findTemporalCorrelations, List.mem_flatMap] at hmem
      obtain ⟨c', hc', hmem'⟩ := hmem
      rw [List.mem_filterMap] at hmem'
      obtain ⟨f', hf', hpair⟩ := hmem'
      rw [temporalPair_eq_some] at hpair
      obtain ⟨_, h24, hcorr⟩ := hpair
      subst hcorr
      simp only at hec hef
      subst hec; subst hef
      exact h24
    · intro h24
      refine ⟨{ cyberEvent := c, fraudEvent := f,
                confidenceScore :=
                  round2 (max (4/5 - |f.detectedAt - c.detectedAt| / 48) (3/10)),
                timeDifferenceHours := round2 |f.detectedAt - c.detectedAt|,
                customerId := c.customerId }, ?_, rfl, rfl⟩
      rw [findTemporalCorrelations, List.mem_flatMap]
      refine ⟨c, hc, List.mem_filterMap.mpr ⟨f, hf, ?_⟩⟩
      rw [temporalPair_eq_some]
      exact ⟨by rw [hcid, hfid], h24, rfl⟩
  · intro corr hmem hec hef
    rw [findTemporalCorrelations, List.mem_flatMap] at hmem
    obtain ⟨c', hc', hmem'⟩ := hmem
    rw [List.mem_filterMap] at hmem'
    obtain ⟨f', hf', hpair⟩ := hmem'
    rw [temporalPair_eq_some] at hpair
    obtain ⟨_, _, hcorr⟩ := hpair
    subst hcorr
    simp only at hec hef
    subst hec; subst hef
    rfl

/-- C3 counterexample: for a pair one hour apart, the stored confidence
is the rounded value `0.78`, which differs from the claim's exact
`max(0.8 - 1/48, 0.3) = 187/240 = 0.7791666…`. -/
theorem temporal_confidence_is_rounded :
    ((findTemporalCorrelations [cybAt 0] [frdAt 1]).map
        TemporalCorrelation.confidenceScore = [39/50]) ∧
      (39/50 : ℚ) ≠ max (4/5 - |(frdAt 1).detectedAt - (cybAt 0).detectedAt| / 48)
        (3/10) := by
  have habs : |(frdAt 1).detectedAt - (cybAt 0).detectedAt| = 1 := by
    simp [cybAt, frdAt]
  have hfloor : ⌊(187/240 * 100 : ℚ)⌋ = 77 := by
    rw [Int.floor_eq_iff]
    norm_num
  have hr2 : round2 (187/240) = 39/50 := by
    unfold round2 roundHalfEven
    rw [hfloor]
    norm_num
  have hmax : max (4/5 - (1 : ℚ) / 48) (3/10) = 187/240 := by norm_num
  constructor
  · have hle : |(frdAt 1).detectedAt - (cybAt 0).detectedAt| ≤ 24 := by
      rw [habs]; norm_num
    simp [findTemporalCorrelations, temporalPair, cybAt, frdAt]
    norm_num [hmax, hr2]
  · rw [habs, hmax]
    norm_num

/-- C3 witness: the emission criterion instantiated at two concrete
events of customer `CUST001` one hour apart. -/
theorem temporal_pair_emission_witness :
    ∃ corr ∈ findTemporalCorrelations [cybAt 0] [frdAt 1],
      corr.cyberEvent = cybAt 0 ∧ corr.fraudEvent = frdAt 1 :=
  (temporal_pair_emission [cybAt 0] [frdAt 1] (cybAt 0) (frdAt 1) "CUST001"
      (by simp) (by simp) rfl rfl).1.mpr (by norm_num [cybAt, frdAt])

/-! ## C5 — the behavioral correlator -/

/-- Filtering the output of a key-indexed `filterMap` over a duplicate-free
key list: at most the one correlation generated from the key itself
survives. -/
theorem filterMap_filter_eq_of_nodup
    (g : Option String → Option BehavioralCorrelation)
    (hg : ∀ i b, g i = some b → b.customerId = i)
    (l : List (Option String)) (hl : l.Nodup) (id : Option String) :
    (l.filterMap g).filter (fun b => b.customerId == id) =
      if id ∈ l then (g id).toList else [] := by
  induction l with
  | nil => simp
  | cons a as ih =>
      obtain ⟨hna, hnd⟩ := List.nodup_cons.mp hl
      rw [List.filterMap_cons]
      rcases hga : g a with _ | b
      · rw [ih hnd]
        by_cases hid : id = a
        · subst hid
          simp [hga, hna]
        · simp [List.mem_cons, hid]
      · have hb : b.customerId = a := hg a b hga
        rw [List.filter_cons]
        by_cases hid : id = a
        · subst hid
          rw [ih hnd]
          simp [hb, hga, hna]
        · have hne : (b.customerId == id) = false := by
            rw [hb]
            exact beq_false_of_ne (fun h => hid h.symm)
          rw [hne]
          rw [ih hnd]
          simp [List.mem_cons, hid]

/-- A customer id occurs among the mapped ids of an event list iff the
list holds a positive number of events with that id. -/
theorem mem_map_customerId_iff (l : List Event) (id : Option String) :
    id ∈ l.map Event.customerId ↔
      0 < (l.filter (fun e => e.customerId == id)).length := by
  rw [List.length_pos_iff_exists_mem]
  constructor
  · intro h
    obtain ⟨e, he, hid⟩ := List.mem_map.mp h
    exact ⟨e, List.mem_filter.mpr ⟨he, by simp [hid]⟩⟩
  · rintro ⟨e, he⟩
    obtain ⟨hmem, hid⟩ := List.mem_filter.mp he
    exact List.mem_map.mpr ⟨e, hmem, eq_of_beq hid⟩

/-- C5 (confirmed): the behavioral correlator emits exactly one
correlation for each subject with at least one cyber and at least one
fraud event in the window — carrying that subject's counts and confidence
`min(0.3 + cyberCount·fraudCount·0.1, 0.9)` (the source's rounding to two
decimals is exact on these values) — and none for any other subject; in
particular a subject with 2 cyber and 3 fraud events gets confidence
`0.9`. -/
theorem behavioral_one_per_subject :
    (∀ (cy fr : List Event) (id : Option String),
      (findBehavioralCorrelations cy fr).filter (fun b => b.customerId == id) =
        (if 0 < (cy.filter (fun e => e.customerId == id)).length ∧
            0 < (fr.filter (fun e => e.customerId == id)).length then
          [{ customerId := id,
             cyberEventCount := (cy.filter (fun e => e.customerId == id)).length,
             fraudEventCount := (fr.filter (fun e => e.customerId == id)).length,
             confidenceScore :=
               min (3/10 + (((cy.filter (fun e => e.customerId == id)).length *
                 (fr.filter (fun e => e.customerId == id)).length : ℕ) : ℚ) *
                 (1/10)) (9/10) }]
        else [])) ∧
    (findBehavioralCorrelations [cybAt 0, cybAt 1] [frdAt 2, frdAt 3, frdAt 4]).map
        BehavioralCorrelation.confidenceScore = [9/10] := by
  have h910 : round2 (9/10) = 9/10 := by
    have h := round2_tenths 9
    norm_num at h
    exact h
  constructor
  · intro cy fr id
    unfold findBehavioralCorrelations
    rw [filterMap_filter_eq_of_nodup _ ?hg _ (List.nodup_dedup _) id]
    case hg =>
      intro i b h
      simp only at h
      by_cases hc : 0 < (cy.filter (fun e => e.customerId == i)).length ∧
          0 < (fr.filter (fun e => e.customerId == i)).length
      · rw [if_pos hc] at h
        cases h
        rfl
      · rw [if_neg hc] at h
        cases h
    simp only [List.mem_dedup, List.mem_append, mem_map_customerId_iff]
    generalize (List.filter (fun e => e.customerId == id) cy).length = cc
    generalize (List.filter (fun e => e.customerId == id) fr).length = fc
    by_cases hcc : 0 < cc ∧ 0 < fc
    · rw [if_pos (Or.inl hcc.1), if_pos hcc, if_pos hcc]
      have hcast : ((cc : ℚ)) * (fc : ℚ) = ((cc * fc : ℕ) : ℚ) := by
        push_cast
        ring
      simp only [Option.toList_some, hcast, round2_behavioral]
    · rw [if_neg hcc]
      by_cases hm : 0 < cc ∨ 0 < fc
      · rw [if_pos hm, if_neg hcc]
        rfl
      · rw [if_neg hm, if_neg hcc]
  · have hconc : findBehavioralCorrelations [cybAt 0, cybAt 1]
        [frdAt 2, frdAt 3, frdAt 4] =
        [{ customerId := some "CUST001", cyberEventCount := 2,
           fraudEventCount := 3,
           confidenceScore :=
             round2 (min (3/10 + ((2 : ℚ)) * ((3 : ℚ)) * (1/10)) (9/10)) }] := by
      unfold findBehavioralCorrelations
      simp [cybAt, frdAt]
    have hmin : min (3/10 + ((2 : ℚ)) * ((3 : ℚ)) * (1/10)) (9/10) = 9/10 := by
      norm_num
    rw [hconc]
    show [round2 (min (3/10 + ((2 : ℚ)) * ((3 : ℚ)) * (1/10)) (9/10))] = [9/10]
    rw [hmin, h910]

/-! ## C6 and C10 — the IOC correlator -/

/-- Membership characterization of the inner fraud loop when it returns
normally: the loop collects exactly the correlations of pairs whose
extracted IOC lists intersect. -/
theorem iocInnerLoop_ok_mem (ipRe domRe hashRe : String → List String)
    (c : Event) (cyberIocs : List PyVal) (fs : List Event)
    (L : List IocCorrelation)
    (h : iocInnerLoop ipRe domRe hashRe c cyberIocs fs = .ok L)
    (corr : IocCorrelation) :
    corr ∈ L ↔ ∃ f ∈ fs, ∃ fIocs,
      extractIocsFromEvent ipRe domRe hashRe f = .ok fIocs ∧
      0 < (sharedIocs cyberIocs fIocs).length ∧
      corr = mkIocCorrelation c f (sharedIocs cyberIocs fIocs) := by
  induction fs generalizing L with
  | nil =>
      rw [iocInnerLoop] at h
      cases h
      simp
  | cons f rest ih =>
      rw [iocInnerLoop] at h
      rcases hf : extractIocsFromEvent ipRe domRe hashRe f with e | fIocs <;>
        rw [hf] at h
      · cases h
      rcases hrest : iocInnerLoop ipRe domRe hashRe c cyberIocs rest with e | tail <;>
        rw [hrest] at h
      · cases h
      simp only at h
      by_cases hlen : 0 < (sharedIocs cyberIocs fIocs).length
      · rw [if_pos hlen] at h
        cases h
        constructor
        · intro hmem
          rcases List.mem_cons.mp hmem with heq | htail
          · exact ⟨f, List.mem_cons_self f rest, fIocs, hf, hlen, heq⟩
          · obtain ⟨f', hf', fIocs', he', hlen', heq'⟩ := (ih tail hrest).mp htail
            exact ⟨f', List.mem_cons_of_mem f hf', fIocs', he', hlen', heq'⟩
        · rintro ⟨f', hmem', fIocs', he', hlen', heq'⟩
          rcases List.mem_cons.mp hmem' with hfeq | htail
          · subst hfeq
            rw [hf] at he'
            cases he'
            rw [heq']
            exact List.mem_cons_self _ _
          · exact List.mem_cons_of_mem _
              ((ih tail hrest).mpr ⟨f', htail, fIocs', he', hlen', heq'⟩)
      · rw [if_neg hlen] at h
        cases h
        constructor
        · intro hmem
          obtain ⟨f', hf', fIocs', he', hlen', heq'⟩ := (ih L hrest).mp hmem
          exact ⟨f', List.mem_cons_of_mem f hf', fIocs', he', hlen', heq'⟩
        · rintro ⟨f', hmem', fIocs', he', hlen', heq'⟩
          rcases List.mem_cons.mp hmem' with hfeq | htail
          · subst hfeq
            rw [hf] at he'
            cases he'
            exact absurd hlen' hlen
          · exact (ih L hrest).mpr ⟨f', htail, fIocs', he', hlen', heq'⟩

/-- Membership characterization of `_find_ioc_correlations` when it
returns normally. -/
theorem findIocCorrelations_ok_mem (ipRe domRe hashRe : String → List String)
    (cys frs : List Event) (L : List IocCorrelation)
    (h : findIocCorrelations ipRe domRe hashRe cys frs = .ok L)
    (corr : IocCorrelation) :
    corr ∈ L ↔ ∃ c ∈ cys, ∃ cIocs,
      extractIocsFromEvent ipRe domRe hashRe c = .ok cIocs ∧ ∃ f ∈ frs, ∃ fIocs,
        extractIocsFromEvent ipRe domRe hashRe f = .ok fIocs ∧
        0 < (sharedIocs cIocs fIocs).length ∧
        corr = mkIocCorrelation c f (sharedIocs cIocs fIocs) := by
  induction cys generalizing L with
  | nil =>
      rw [findIocCorrelations] at h
      cases h
      simp
  | cons c rest ih =>
      rw [findIocCorrelations] at h
      rcases hc : extractIocsFromEvent ipRe domRe hashRe c with e | cIocs <;>
        rw [hc] at h
      · cases h
      simp only at h
      rcases hin : iocInnerLoop ipRe domRe hashRe c cIocs frs with e | here <;>
        rw [hin] at h
      · cases h
      simp only at h
      rcases hrest : findIocCorrelations ipRe domRe hashRe rest frs with e | tail <;>
        rw [hrest] at h
      · cases h
      simp only at h
      cases h
      rw [List.mem_append]
      constructor
      · intro hmem
        rcases hmem with hhere | htail
        · obtain ⟨f, hfmem, fIocs, hef, hlen, heq⟩ :=
            (iocInnerLoop_ok_mem ipRe domRe hashRe c cIocs frs here hin corr).mp
              hhere
          exact ⟨c, List.mem_cons_self c rest, cIocs, hc, f, hfmem, fIocs, hef,
            hlen, heq⟩
        · obtain ⟨c', hcmem, cIocs', hec', rest'⟩ := (ih tail hrest).mp htail
          exact ⟨c', List.mem_cons_of_mem c hcmem, cIocs', hec', rest'⟩
      · rintro ⟨c', hcmem, cIocs', hec', f, hfmem, fIocs, hef, hlen, heq⟩
        rcases List.mem_cons.mp hcmem with hceq | hctail
        · subst hceq
          rw [hc] at hec'
          cases hec'
          exact Or.inl
            ((iocInnerLoop_ok_mem ipRe domRe hashRe c' cIocs frs here hin
              corr).mpr ⟨f, hfmem, fIocs, hef, hlen, heq⟩)
        · exact Or.inr ((ih tail hrest).mpr
            ⟨c', hctail, cIocs', hec', f, hfmem, fIocs, hef, hlen, heq⟩)

/-- C6 (confirmed): in a correlation pass that completes normally, for
every cyber/fraud pair in the window (with their extracted IOC lists), a
correlation for the pair is emitted iff the two IOC sets intersect, and
any emitted correlation for the pair carries confidence
`min(0.5 + |intersection|·0.2, 0.9)` (the source's rounding to two
decimals is exact on these values). -/
theorem ioc_pair_emission (ipRe domRe hashRe : String → List String)
    (cys frs : List Event) (L : List IocCorrelation)
    (hL : findIocCorrelations ipRe domRe hashRe cys frs = .ok L)
    (c f : Event) (cIocs fIocs : List PyVal)
    (hc : c ∈ cys) (hf : f ∈ frs)
    (hec : extractIocsFromEvent ipRe domRe hashRe c = .ok cIocs)
    (hef : extractIocsFromEvent ipRe domRe hashRe f = .ok fIocs) :
    ((∃ corr ∈ L, corr.cyberEvent = c ∧ corr.fraudEvent = f) ↔
      0 < (sharedIocs cIocs fIocs).length) ∧
    (∀ corr ∈ L, corr.cyberEvent = c → corr.fraudEvent = f →
      corr.confidenceScore =
        min (1/2 + ((sharedIocs cIocs fIocs).length : ℚ) * (2/10)) (9/10)) := by
  constructor
  · constructor
    · rintro ⟨corr, hmem, hcyb, hfrd⟩
      obtain ⟨c', _, cIocs', hec', f', _, fIocs', hef', hlen', heq'⟩ :=
        (findIocCorrelations_ok_mem ipRe domRe hashRe cys frs L hL corr).mp hmem
      have hc' : c' = c := by rw [← hcyb, heq']; rfl
      have hf' : f' = f := by rw [← hfrd, heq']; rfl
      subst hc'; subst hf'
      rw [hec] at hec'; cases hec'
      rw [hef] at hef'; cases hef'
      exact hlen'
    · intro hlen
      exact ⟨mkIocCorrelation c f (sharedIocs cIocs fIocs),
        (findIocCorrelations_ok_mem ipRe domRe hashRe cys frs L hL _).mpr
          ⟨c, hc, cIocs, hec, f, hf, fIocs, hef, hlen, rfl⟩, rfl, rfl⟩
  · intro corr hmem hcyb hfrd
    obtain ⟨c', _, cIocs', hec', f', _, fIocs', hef', hlen', heq'⟩ :=
      (findIocCorrelations_ok_mem ipRe domRe hashRe cys frs L hL corr).mp hmem
    have hc' : c' = c := by rw [← hcyb, heq']; rfl
    have hf' : f' = f := by rw [← hfrd, heq']; rfl
    subst hc'; subst hf'
    rw [hec] at hec'; cases hec'
    rw [hef] at hef'; cases hef'
    rw [heq']
    show round2 (min (1/2 + ((sharedIocs cIocs fIocs).length : ℚ) * (2/10))
      (9/10)) = _
    exact round2_ioc (sharedIocs cIocs fIocs).length

/-- C6 witness: for the concrete pair sharing exactly one IOC, a
correlation is emitted and its confidence is `0.7`. -/
theorem ioc_pair_emission_witness :
    (∃ corr ∈ iocDemoList, corr.cyberEvent = cybIoc ∧ corr.fraudEvent = frdIoc) ∧
      (mkIocCorrelation cybIoc frdIoc
        [PyVal.str "192.168.1.100"]).confidenceScore = 7/10 := by
  have hex : extractIocsFromEvent noRe noRe noRe cybIoc =
      .ok [PyVal.str "192.168.1.100"] := by
    simp [extractIocsFromEvent, cybIoc, pyExtend, pySetList, pyDedup, pyMem,
      PyVal.hashable, noRe]
  have hef : extractIocsFromEvent noRe noRe noRe frdIoc =
      .ok [PyVal.str "192.168.1.100"] := by
    simp [extractIocsFromEvent, frdIoc, pyExtend, pySetList, pyDedup, pyMem,
      PyVal.hashable, noRe]
  have hshared : sharedIocs [PyVal.str "192.168.1.100"]
      [PyVal.str "192.168.1.100"] = [PyVal.str "192.168.1.100"] := by
    simp [sharedIocs, pyMem, PyVal.beq]
  have hL : findIocCorrelations noRe noRe noRe [cybIoc] [frdIoc] =
      .ok iocDemoList := by
    rw [findIocCorrelations, hex]
    simp only
    rw [iocInnerLoop, hef]
    simp only
    rw [iocInnerLoop]
    simp only [hshared]
    rw [findIocCorrelations]
    simp [iocDemoList]
  have h := ioc_pair_emission noRe noRe noRe [cybIoc] [frdIoc] iocDemoList hL
    cybIoc frdIoc [PyVal.str "192.168.1.100"] [PyVal.str "192.168.1.100"]
    (List.mem_singleton.mpr rfl) (List.mem_singleton.mpr rfl) hex hef
  constructor
  · exact h.1.mpr (by rw [hshared]; simp)
  · have hconf := h.2 (mkIocCorrelation cybIoc frdIoc
      [PyVal.str "192.168.1.100"]) (List.mem_singleton.mpr rfl) rfl rfl
    rw [hconf, hshared]
    norm_num

/-- C10 (confirmed): in a pass that completes normally, a cyber/fraud
pair whose extracted IOC sets intersect is correlated with no condition on
the two events' customer ids, and the emitted correlation's customer id is
`cyber_event.get('customer_id', 'Unknown')` — the cyber event's id,
defaulting to `Unknown` when the cyber event carries none. -/
theorem ioc_pair_customer_from_cyber (ipRe domRe hashRe : String → List String)
    (cys frs : List Event) (L : List IocCorrelation)
    (hL : findIocCorrelations ipRe domRe hashRe cys frs = .ok L)
    (c f : Event) (cIocs fIocs : List PyVal)
    (hc : c ∈ cys) (hf : f ∈ frs)
    (hec : extractIocsFromEvent ipRe domRe hashRe c = .ok cIocs)
    (hef : extractIocsFromEvent ipRe domRe hashRe f = .ok fIocs)
    (hlen : 0 < (sharedIocs cIocs fIocs).length) :
    ∃ corr ∈ L, corr.cyberEvent = c ∧ corr.fraudEvent = f ∧
      corr.customerId = c.customerId.getD "Unknown" :=
  ⟨mkIocCorrelation c f (sharedIocs cIocs fIocs),
    (findIocCorrelations_ok_mem ipRe domRe hashRe cys frs L hL _).mpr
      ⟨c, hc, cIocs, hec, f, hf, fIocs, hef, hlen, rfl⟩, rfl, rfl, rfl⟩

/-- C10 witness: the pair with customer ids `A` ≠ `B` is correlated with
customer id `A` taken from the cyber event, and the pair whose cyber event
has no customer id is correlated with customer id `Unknown`. -/
theorem ioc_pair_customer_from_cyber_witness :
    (∃ corr ∈ iocCrossList, corr.cyberEvent = cybIocA ∧
      corr.fraudEvent = frdIocB ∧ corr.customerId = "A") ∧
    (∃ corr ∈ iocNoneList, corr.cyberEvent = cybIocNone ∧
      corr.fraudEvent = frdIocB ∧ corr.customerId = "Unknown") := by
  have hshared : sharedIocs [PyVal.str "x.com"] [PyVal.str "x.com"] =
      [PyVal.str "x.com"] := by
    simp [sharedIocs, pyMem, PyVal.beq]
  have hefB : extractIocsFromEvent noRe noRe noRe frdIocB =
      .ok [PyVal.str "x.com"] := by
    simp [extractIocsFromEvent, frdIocB, pyExtend, pySetList, pyDedup, pyMem,
      PyVal.hashable, noRe]
  constructor
  · have hecA : extractIocsFromEvent noRe noRe noRe cybIocA =
        .ok [PyVal.str "x.com"] := by
      simp [extractIocsFromEvent, cybIocA, pyExtend, pySetList, pyDedup, pyMem,
        PyVal.hashable, noRe]
    have hL : findIocCorrelations noRe noRe noRe [cybIocA] [frdIocB] =
        .ok iocCrossList := by
      rw [findIocCorrelations, hecA]
      simp only
      rw [iocInnerLoop, hefB]
      simp only
      rw [iocInnerLoop]
      simp only [hshared]
      rw [findIocCorrelations]
      simp [iocCrossList]
    exact ioc_pair_customer_from_cyber noRe noRe noRe [cybIocA] [frdIocB]
      iocCrossList hL cybIocA frdIocB [PyVal.str "x.com"] [PyVal.str "x.com"]
      (List.mem_singleton.mpr rfl) (List.mem_singleton.mpr rfl) hecA hefB
      (by rw [hshared]; simp)
  · have hecN : extractIocsFromEvent noRe noRe noRe cybIocNone =
        .ok [PyVal.str "x.com"] := by
      simp [extractIocsFromEvent, cybIocNone, pyExtend, pySetList, pyDedup,
        pyMem, PyVal.hashable, noRe]
    have hL : findIocCorrelations noRe noRe noRe [cybIocNone] [frdIocB] =
        .ok iocNoneList := by
      rw [findIocCorrelations, hecN]
      simp only
      rw [iocInnerLoop, hefB]
      simp only
      rw [iocInnerLoop]
      simp only [hshared]
      rw [findIocCorrelations]
      simp [iocNoneList]
    exact ioc_pair_customer_from_cyber noRe noRe noRe [cybIocNone] [frdIocB]
      iocNoneList hL cybIocNone frdIocB [PyVal.str "x.com"] [PyVal.str "x.com"]
      (List.mem_singleton.mpr rfl) (List.mem_singleton.mpr rfl) hecN hefB
      (by rw [hshared]; simp)

/-! ## C7 — store failures during a correlation pass -/

/-- The storage loop written as an append of the successfully inserted
rows: exactly the rows whose insert did not fail are committed, in order. -/
theorem storeAllCorrelations_eq (table : List CorrRow) (fails : ℕ → Bool)
    (i : ℕ) (cs : List Correlation) :
    storeAllCorrelations table fails i cs =
      table ++ (List.enumFrom i cs).filterMap
        (fun p => if fails p.1 then none else some (rowOf p.2)) := by
  induction cs generalizing table i with
  | nil => simp [storeAllCorrelations]
  | cons c cs ih =>
      rw [storeAllCorrelations, List.enumFrom_cons, List.filterMap_cons, ih]
      by_cases hfl : fails i
      · simp [storeCorrelation, hfl]
      · simp [storeCorrelation, hfl]

/-- C7 (amended): a persistence failure while storing a correlation is
caught inside `_store_correlation` and only logged — for every pattern of
insert failures the pass still returns the full correlation list as a
normal (non-error) result, and the rows committed are exactly those of the
correlations whose individual insert succeeded, so inserts made before a
failure stay committed (partial commits remain). No store failure is ever
surfaced to the caller; only an IOC-extraction error aborts the pass. -/
theorem analyze_swallows_store_failures
    (ipRe domRe hashRe : String → List String) (cys frs : List Event)
    (table : List CorrRow) (fails : ℕ → Bool) (iocCorrs : List IocCorrelation)
    (hIoc : findIocCorrelations ipRe domRe hashRe cys frs = .ok iocCorrs) :
    analyzeRecentActivity ipRe domRe hashRe cys frs table fails =
      .ok (table ++
        (List.enumFrom 0
          ((findTemporalCorrelations cys frs).map Correlation.temporal ++
           (findBehavioralCorrelations cys frs).map Correlation.behavioral ++
           iocCorrs.map Correlation.ioc)).filterMap
          (fun p => if fails p.1 then none else some (rowOf p.2)),
        (findTemporalCorrelations cys frs).map Correlation.temporal ++
          (findBehavioralCorrelations cys frs).map Correlation.behavioral ++
          iocCorrs.map Correlation.ioc) := by
  unfold analyzeRecentActivity
  rw [hIoc]
  simp only
  rw [storeAllCorrelations_eq]

/-- C7 counterexample: on a window holding one temporal and one
behavioral correlation, with the insert of the second correlation failing
(`fails 1`), the pass still returns a normal `.ok` result (no typed error
is surfaced, the pass is not aborted: both correlations are returned) and
the first correlation's row remains committed — a partial commit. -/
theorem store_failure_not_surfaced :
    analyzeRecentActivity noRe noRe noRe [cybAt 0] [frdAt 0] []
        (fun i => i == 1) =
      .ok ([{ correlationType := "TEMPORAL", confidenceScore := 4/5,
              status := "NEW" }],
        [Correlation.temporal
          { cyberEvent := cybAt 0, fraudEvent := frdAt 0,
            confidenceScore := 4/5, timeDifferenceHours := 0,
            customerId := some "CUST001" },
         Correlation.behavioral
          { customerId := some "CUST001", cyberEventCount := 1,
            fraudEventCount := 1, confidenceScore := 2/5 }]) ∧
      ([{ correlationType := "TEMPORAL", confidenceScore := 4/5,
          status := "NEW" }] : List CorrRow) ≠ [] := by
  have h45 : round2 (4/5) = 4/5 := by
    have h := round2_tenths 8
    norm_num at h
    exact h
  have h00 : round2 0 = 0 := by
    have h := round2_tenths 0
    norm_num at h
    exact h
  have h25 : round2 (2/5) = 2/5 := by
    have h := round2_tenths 4
    norm_num at h
    exact h
  have htemp : findTemporalCorrelations [cybAt 0] [frdAt 0] =
      [{ cyberEvent := cybAt 0, fraudEvent := frdAt 0, confidenceScore := 4/5,
         timeDifferenceHours := 0, customerId := some "CUST001" }] := by
    have habs : |(0 : ℚ) - 0| = 0 := by norm_num
    have hmax : max (4/5 - (0 : ℚ) / 48) (3/10) = 4/5 := by norm_num
    have hmax2 : max ((4 : ℚ)/5) (3/10) = 4/5 := by norm_num
    simp [findTemporalCorrelations, temporalPair, cybAt, frdAt, habs, hmax,
      hmax2, h45, h00]
  have hbeh : findBehavioralCorrelations [cybAt 0] [frdAt 0] =
      [{ customerId := some "CUST001", cyberEventCount := 1,
         fraudEventCount := 1, confidenceScore := 2/5 }] := by
    have hmin : min (3/10 + ((1 : ℚ)) * ((1 : ℚ)) * (1/10)) (9/10) = 2/5 := by
      norm_num
    have hmin2 : min ((3 : ℚ)/10 + 10⁻¹) (9/10) = 2/5 := by norm_num
    unfold findBehavioralCorrelations
    simp [cybAt, frdAt, hmin, hmin2, h25]
  have hioc : findIocCorrelations noRe noRe noRe [cybAt 0] [frdAt 0] =
      .ok [] := by
    simp [findIocCorrelations, iocInnerLoop, extractIocsFromEvent, pySetList,
      pyDedup, sharedIocs, noRe, cybAt, frdAt]
  refine ⟨?_, by simp⟩
  unfold analyzeRecentActivity
  rw [hioc]
  simp only [htemp, hbeh]
  rw [storeAllCorrelations_eq]
  simp [rowOf, Correlation.ctype, Correlation.confidence]

/-- C7 witness: the amended theorem instantiated on the concrete window
and failure pattern of the counterexample. -/
theorem analyze_swallows_store_failures_witness :
    analyzeRecentActivity noRe noRe noRe [cybAt 0] [frdAt 0] []
        (fun i => i == 1) =
      .ok (([] : List CorrRow) ++
        (List.enumFrom 0
          ((findTemporalCorrelations [cybAt 0] [frdAt 0]).map
             Correlation.temporal ++
           (findBehavioralCorrelations [cybAt 0] [frdAt 0]).map
             Correlation.behavioral ++
           ([] : List IocCorrelation).map Correlation.ioc)).filterMap
          (fun p => if (fun i => i == 1) p.1 then none else some (rowOf p.2)),
        (findTemporalCorrelations [cybAt 0] [frdAt 0]).map
          Correlation.temporal ++
          (findBehavioralCorrelations [cybAt 0] [frdAt 0]).map
            Correlation.behavioral ++
          ([] : List IocCorrelation).map Correlation.ioc) :=
  analyze_swallows_store_failures noRe noRe noRe [cybAt 0] [frdAt 0] []
    (fun i => i == 1) []
    (by simp [findIocCorrelations, iocInnerLoop, extractIocsFromEvent,
      pySetList, pyDedup, sharedIocs, noRe, cybAt, frdAt])
